import Mathlib

/-!
Verification of the SFProCursor crawler / content-processing pipeline.

The definitions below are shallow embeddings of the Python sources:
  * `backend/services/crawler.py` (navigation retries, directed and
    full-site crawl loops, page-data extraction, internal-link filtering),
  * `backend/services/content_processor.py` (markdown post-processing and
    text chunking),
  * `backend/api/routes/crawls.py` (the crawl-finish status transition).

External collaborators that are not part of the repository (the Playwright
browser, BeautifulSoup / markdownify / readability, `urllib.parse`
helpers, the database session and the embedding model) are modelled as
explicit function parameters ("environments"); everything the repository
itself computes is translated directly from the source.
-/

namespace SFPro

/-! ### Python primitives

Helpers mirroring the exact Python string semantics used by the sources. -/

/-- Python's whitespace test (`\s` in `re`, `str.isspace` / `str.strip`):
the ASCII whitespace characters together with the Unicode whitespace
code points Python recognises. -/
def isPySpace (c : Char) : Bool :=
  decide (c.toNat = 32) || (decide (9 ≤ c.toNat) && decide (c.toNat ≤ 13)) ||
  (decide (28 ≤ c.toNat) && decide (c.toNat ≤ 31)) ||
  decide (c.toNat = 0x85) || decide (c.toNat = 0xA0) || decide (c.toNat = 0x1680) ||
  (decide (0x2000 ≤ c.toNat) && decide (c.toNat ≤ 0x200A)) ||
  decide (c.toNat = 0x2028) || decide (c.toNat = 0x2029) ||
  decide (c.toNat = 0x202F) || decide (c.toNat = 0x205F) || decide (c.toNat = 0x3000)

/-- Python `str.strip()`: remove leading and trailing whitespace. -/
def pyStrip (l : List Char) : List Char :=
  ((l.dropWhile isPySpace).reverse.dropWhile isPySpace).reverse

/-- Python `str.startswith(pre)`. -/
def pyStartsWith (s pre : String) : Bool :=
  decide (s.data.take pre.data.length = pre.data)

/-- Python `str.endswith(suf)`. -/
def pyEndsWith (s suf : String) : Bool :=
  decide (suf.data.length ≤ s.data.length) &&
  decide (s.data.drop (s.data.length - suf.data.length) = suf.data)

/-- Python `str.replace(old, new)` on character lists: replace every
non-overlapping occurrence of `old`, scanning left to right.  (Python's
behaviour for an empty `old` is irrelevant here; the sources only replace
the non-empty literals `"og:"` and `"twitter:"`.)  The scan consumes at
least one character per step, so the `fuel` parameter — always called
with the length of the list — never runs out; it only makes the
recursion structural. -/
def replGo (old new : List Char) : Nat → List Char → List Char
  | 0, l => l
  | _ + 1, [] => []
  | fuel + 1, c :: rest =>
    if old ≠ [] ∧ (c :: rest).take old.length = old then
      new ++ replGo old new fuel ((c :: rest).drop old.length)
    else
      c :: replGo old new fuel rest

/-- Python `str.replace(old, new)`. -/
def pyReplace (s old new : String) : String :=
  ⟨replGo old.data new.data s.data.length s.data⟩

/-! ### `WebCrawler._navigate_with_retries` (crawler.py, lines 280-310)

The navigation loop is driven by the browser collaborator; a single
`page.goto` call is modelled by an environment `env : Nat → Option Nat`
giving, for the k-th goto call issued for this URL (0-indexed), either
`some status` (a response was returned, carrying its HTTP status) or
`none` (the call raised, e.g. a timeout).  The embedding records the
trace of goto calls (which wait strategy each used) and of the
`asyncio.sleep` backoff durations, plus the final outcome: `some status`
when a response was returned, `none` when the exception of the last
attempt propagated (or, dead code for `max_retries > 0`, the loop ended). -/

/-- The `wait_until` strategy of a `page.goto` call. -/
inductive Strategy
  | networkidle
  | load
deriving DecidableEq

/-- Trace of one `_navigate_with_retries` run: goto calls in order,
sleep durations in order, and the result (`some status` = a response was
returned; `none` = the last attempt's exception propagated). -/
structure NavTrace where
  calls : List Strategy
  sleeps : List Nat
  result : Option Nat
deriving DecidableEq

/-- The `for attempt in range(max_retries)` loop of
`_navigate_with_retries`.  `remaining` counts the iterations left
(`maxRetries - attempt`); the body is a direct transcription:
try a `networkidle` goto; on exception, if `attempt < max_retries - 1`
then (only when `attempt == 1`) try a `load`-strategy goto, and sleep
`2 ** attempt` seconds before the next iteration; otherwise re-raise. -/
def navGo (env : Nat → Option Nat) (maxRetries : Nat) :
    Nat → Nat → List Strategy → List Nat → NavTrace
  | 0, _, calls, sleeps => ⟨calls, sleeps, none⟩
  | remaining + 1, attempt, calls, sleeps =>
    match env calls.length with
    | some s => ⟨calls ++ [Strategy.networkidle], sleeps, some s⟩
    | none =>
      let calls1 := calls ++ [Strategy.networkidle]
      if attempt < maxRetries - 1 then
        if attempt = 1 then
          match env calls1.length with
          | some s => ⟨calls1 ++ [Strategy.load], sleeps, some s⟩
          | none =>
            navGo env maxRetries remaining (attempt + 1) (calls1 ++ [Strategy.load])
              (sleeps ++ [2 ^ attempt])
        else
          navGo env maxRetries remaining (attempt + 1) calls1 (sleeps ++ [2 ^ attempt])
      else ⟨calls1, sleeps, none⟩

/-- `_navigate_with_retries(page, url, max_retries)`. -/
def navigate_with_retries (env : Nat → Option Nat) (maxRetries : Nat) : NavTrace :=
  navGo env maxRetries maxRetries 0 [] []

/-- Environment in which every goto call raises. -/
def envAllFail : Nat → Option Nat := fun _ => none

/-- Claim C1: for every URL (i.e. every possible sequence of goto
outcomes), the fetcher performs at most 3 navigation attempts (retry-loop
iterations, each opening with a `networkidle` goto); the `load`-strategy
fallback is issued only inside the second attempt (loop index 1), as the
third goto call overall, right after two failed `networkidle` calls; the
loop sleeps `2 ^ attempt` seconds between attempts, so the sleep trace is
a prefix of `[2^0, 2^1]` and the backoff delays are non-decreasing. -/
theorem C1_retry_policy (env : Nat → Option Nat) :
    (navigate_with_retries env 3).calls.count Strategy.networkidle ≤ 3
    ∧ (Strategy.load ∈ (navigate_with_retries env 3).calls →
        (navigate_with_retries env 3).calls.take 3 =
          [Strategy.networkidle, Strategy.networkidle, Strategy.load])
    ∧ ((navigate_with_retries env 3).sleeps = [] ∨
        (navigate_with_retries env 3).sleeps = [2 ^ 0] ∨
        (navigate_with_retries env 3).sleeps = [2 ^ 0, 2 ^ 1])
    ∧ (navigate_with_retries env 3).sleeps.Chain' (· ≤ ·) := by
  cases h0 : env 0 <;> cases h1 : env 1 <;> cases h2 : env 2 <;> cases h3 : env 3 <;>
    simp [navigate_with_retries, navGo, h0, h1, h2, h3, List.count_cons]

/-- Witness for C1 at the environment where every goto raises: three
`networkidle` attempts are made, the `load` fallback is the third goto,
and the backoff sleeps are exactly `[2^0, 2^1]`. -/
theorem C1_retry_policy_witness :
    (navigate_with_retries envAllFail 3).calls.count Strategy.networkidle ≤ 3
    ∧ (navigate_with_retries envAllFail 3).calls.take 3 =
        [Strategy.networkidle, Strategy.networkidle, Strategy.load]
    ∧ (navigate_with_retries envAllFail 3).sleeps = [2 ^ 0, 2 ^ 1] :=
  ⟨(C1_retry_policy envAllFail).1,
   (C1_retry_policy envAllFail).2.1 (by decide),
   by decide⟩

/-! ### `WebCrawler._extract_page_data` (crawler.py, lines 332-437)

The DOM handed back by the browser is external; the embedding receives
the raw data the extraction code reads from it (the page's `<meta>` tags
and anchors) through a `FetchEnv`, and translates what the repository
does with that data.  `urljoin` / `urlparse(...).netloc` are Python
standard-library collaborators, likewise passed as functions. -/

/-- A `<meta>` tag as the extraction code sees it: its `property` and
`name` attributes (absent attributes are `none`) and its `content`
attribute (`tag.get('content', '')` defaults to `""`). -/
structure MetaTag where
  property : Option String
  name : Option String
  content : Option String
deriving DecidableEq

/-- One entry of the extracted `links` list. -/
structure Link where
  url : String
  text : String
  is_internal : Bool
deriving DecidableEq

/-- CPython `dict` assignment `d[k] = v`: overwrite the value in place if
the key is present (insertion order is preserved), else append. -/
def dinsert : List (String × String) → String → String → List (String × String)
  | [], k, v => [(k, v)]
  | (k0, v0) :: rest, k, v =>
    if k0 = k then (k, v) :: rest else (k0, v0) :: dinsert rest k v

/-- CPython `dict` lookup `d[k]` on the association-list model: the
entry whose key matches (keys are unique by `dinsert` construction). -/
def dlookup (k : String) : List (String × String) → Option String
  | [] => none
  | (k0, v) :: rest => if k0 = k then some v else dlookup k rest

/-- One iteration of the `og_data` loop (crawler.py, lines 363-365): a
meta tag whose `property` attribute matches `^og:` stores its `content`
under the key with the `og:` prefix replaced away. -/
def ogStep (m : List (String × String)) (t : MetaTag) : List (String × String) :=
  match t.property with
  | some p =>
    if pyStartsWith p "og:" then dinsert m (pyReplace p "og:" "") (t.content.getD "")
    else m
  | none => m

/-- The `og_data` dict: the loop over the page's meta tags in document
order, later tags overwriting earlier ones on equal keys. -/
def ogData (metas : List MetaTag) : List (String × String) :=
  metas.foldl ogStep []

/-- One iteration of the `twitter_data` loop (crawler.py, lines
369-371): same with the `name` attribute and the `twitter:` prefix. -/
def twStep (m : List (String × String)) (t : MetaTag) : List (String × String) :=
  match t.name with
  | some p =>
    if pyStartsWith p "twitter:" then dinsert m (pyReplace p "twitter:" "") (t.content.getD "")
    else m
  | none => m

/-- The `twitter_data` dict. -/
def twitterData (metas : List MetaTag) : List (String × String) :=
  metas.foldl twStep []

/-- The merge `{**og_data, **twitter_data}` (crawler.py, line 433): build
a fresh dict from `og_data`'s items, then assign every `twitter_data`
item, so twitter values overwrite og values on key collision. -/
def ogJson (metas : List MetaTag) : List (String × String) :=
  (twitterData metas).foldl (fun m kv => dinsert m kv.1 kv.2) (ogData metas)

/-- The body of the anchor loop (crawler.py, lines 397-412) for one
anchor `(href, text)` (only anchors that do have an `href` attribute are
iterated, hence the pair).  `urljoin` and `netloc` model
`urllib.parse.urljoin` and `urlparse(...).netloc`. -/
def mkLink (urljoin : String → String → String) (netloc : String → String)
    (domain url href text : String) : Link :=
  if pyStartsWith href "http://" || pyStartsWith href "https://" then
    { url := href, text := text, is_internal := decide (netloc href = domain) }
  else
    { url := urljoin url href, text := text, is_internal := true }

/-- The extracted `links` list: `domain = urlparse(url).netloc`, then the
anchor loop in document order. -/
def extractLinks (urljoin : String → String → String) (netloc : String → String)
    (url : String) (anchors : List (String × String)) : List Link :=
  anchors.map (fun a => mkLink urljoin netloc (netloc url) url a.1 a.2)

/-- The slice of the extracted page dict that the claims under
verification read (`url`, the constant `status_code`, the merged
`og_json` map and the `links_json` list); the remaining fields (title,
description, headings, images, markdown content, ...) are not referenced
by any claim and are omitted from the record. -/
structure PageData where
  url : String
  status_code : Nat
  og_json : List (String × String)
  links_json : List Link
deriving DecidableEq

/-- The external world of one crawl: per URL, the outcomes of the goto
calls issued for it (see `navGo`), and the meta tags and anchors of its
rendered DOM; plus the two `urllib.parse` helpers. -/
structure FetchEnv where
  goto : String → Nat → Option Nat
  metas : String → List MetaTag
  anchors : String → List (String × String)
  urljoin : String → String → String
  netloc : String → String

/-- `_extract_page_data(page, url)` restricted to the fields above; the
`status_code` field is the literal `200` from crawler.py line 423
(`'status_code': 200,  # TODO: Get actual status from response`). -/
def extract_page_data (E : FetchEnv) (url : String) : PageData :=
  { url := url
    status_code := 200
    og_json := ogJson (E.metas url)
    links_json := extractLinks E.urljoin E.netloc url (E.anchors url) }

/-! ### `WebCrawler._crawl_page` (crawler.py, lines 236-270)

`_crawl_page` navigates with retries and checks the response: no
response (the navigation raised; the exception is caught by the
`except` around the body) or a status `>= 400` yields `None`; otherwise
the page data is extracted and returned.  `_wait_for_stable_page` and
the resource-blocking route handler have no effect on the extracted
data and leave no trace in this state. -/

/-- `_crawl_page(url)`. -/
def crawl_page (E : FetchEnv) (url : String) : Option PageData :=
  match (navigate_with_retries (E.goto url) 3).result with
  | none => none
  | some s => if 400 ≤ s then none else some (extract_page_data E url)

/-! ### `WebCrawler._crawl_directed` (crawler.py, lines 151-180)

The loop body awaits `_crawl_page` (which catches every exception and
returns `None` instead), `_save_page_data` (called without a database
session, so it logs a warning and returns) and `asyncio.sleep`; none of
these can raise here, so the `except` arm of the body — which would
increment `pages_failed` and append `"{url}: {error}"` — is dead code in
this embedding and the error list stays as the loop found it. -/

/-- The `results` dictionary of `crawl_site`. -/
structure CrawlResults where
  total_pages : Nat
  pages_crawled : Nat
  pages_failed : Nat
  errors : List String
deriving DecidableEq

/-- The body of the `for url in urls` loop of `_crawl_directed`: on a
page-data result, save it (a no-op without a database session) and
increment `pages_crawled`; on `None`, increment `pages_failed`. -/
def dirStep (E : FetchEnv) (r : CrawlResults) (url : String) : CrawlResults :=
  match crawl_page E url with
  | some _ => { r with pages_crawled := r.pages_crawled + 1 }
  | none => { r with pages_failed := r.pages_failed + 1 }

/-- `_crawl_directed(site, crawl, urls, results)`: set
`results['total_pages'] = len(urls)`, then fetch each URL in order. -/
def crawl_directed (E : FetchEnv) (urls : List String) : CrawlResults :=
  urls.foldl (dirStep E)
    { total_pages := urls.length, pages_crawled := 0, pages_failed := 0, errors := [] }

/-! ### `WebCrawler._extract_internal_links` (crawler.py, lines 468-479)

The final `list(set(internal_urls))` converts through a Python `set`,
whose iteration order is implementation-defined (CPython hash order,
randomized for strings); it is modelled by an environment
`senum : List String → List String` required only to enumerate the
distinct elements of its input, in some order. -/

/-- What CPython guarantees about `list(set(l))`: a duplicate-free
enumeration of exactly the elements of `l`. -/
def ValidSetEnum (senum : List String → List String) : Prop :=
  ∀ l : List String, (senum l).Nodup ∧ ∀ x, x ∈ senum l ↔ x ∈ l

/-- The asset extensions dropped by the filter. -/
def assetExts : List String := [".pdf", ".jpg", ".png", ".gif", ".css", ".js"]

/-- The `internal_urls` list built by the loop: links with a truthy
`is_internal` and a truthy (non-empty) `url`, dropping URLs ending in an
asset extension, in discovery order. -/
def internalUrlCandidates (links : List Link) : List String :=
  links.filterMap
    (fun l =>
      if l.is_internal = true ∧ l.url ≠ "" then
        if assetExts.any (fun e => pyEndsWith l.url e) then none else some l.url
      else none)

/-- `_extract_internal_links(links, domain)`; `domain` is accepted and
unused, exactly as in the source. -/
def extract_internal_links (senum : List String → List String)
    (links : List Link) (domain : String) : List String :=
  senum (internalUrlCandidates links)

/-! ### `WebCrawler._crawl_full_site` (crawler.py, lines 182-234)

The breadth-first loop over `(url, depth)` frontier entries.  The
`visited` Python set is modelled as a duplicate-free list (elements are
only added after a membership check).  As in `_crawl_directed`, the
body's `except` arm is dead code, so no error strings accumulate. -/

/-- The loop state of `_crawl_full_site` when it halts: the visited set,
the remaining frontier and the two counters (`total_pages` is set to
`len(visited)` after the loop). -/
structure SiteState where
  visited : List String
  toVisit : List (String × Nat)
  crawled : Nat
  failed : Nat
deriving DecidableEq

/-- The `while to_visit and len(visited) < max_pages` loop.  Each
iteration pops the head; an already-visited or too-deep entry is
discarded; otherwise the URL is marked visited and fetched, and on
success (when `depth < max_depth`) its filtered internal links that are
not yet visited are appended to the frontier at `depth + 1`. -/
def crawl_full_site_go (E : FetchEnv) (senum : List String → List String)
    (maxPages maxDepth : Nat) (domain : String) :
    List String → List (String × Nat) → Nat → Nat → SiteState
  | visited, [], crawled, failed => ⟨visited, [], crawled, failed⟩
  | visited, (url, depth) :: rest, crawled, failed =>
    if hv : visited.length < maxPages then
      if url ∈ visited ∨ maxDepth < depth then
        crawl_full_site_go E senum maxPages maxDepth domain visited rest crawled failed
      else
        match crawl_page E url with
        | some pd =>
          let newLinks :=
            if depth < maxDepth then
              ((extract_internal_links senum pd.links_json domain).filter
                  (fun l => l ∉ visited ++ [url])).map (fun l => (l, depth + 1))
            else []
          crawl_full_site_go E senum maxPages maxDepth domain (visited ++ [url])
            (rest ++ newLinks) (crawled + 1) failed
        | none =>
          crawl_full_site_go E senum maxPages maxDepth domain (visited ++ [url])
            rest crawled (failed + 1)
    else ⟨visited, (url, depth) :: rest, crawled, failed⟩
termination_by visited toVisit _ _ => (maxPages - visited.length, toVisit.length)
decreasing_by
  · apply Prod.Lex.right
    simp
  · apply Prod.Lex.left
    simp only [List.length_append, List.length_cons, List.length_nil]
    omega
  · apply Prod.Lex.left
    simp only [List.length_append, List.length_cons, List.length_nil]
    omega

/-- `_crawl_full_site(site, crawl, results)`: seed the frontier with the
domain root at depth 0 and run the loop.  (`start_url` is built as
`f"https://{site.domain}"`; the subsequent `startswith` fixup is dead
because that literal always starts with `https://`.) -/
def crawl_full_site (E : FetchEnv) (senum : List String → List String)
    (maxPages maxDepth : Nat) (domain : String) : SiteState :=
  crawl_full_site_go E senum maxPages maxDepth domain []
    [("https://" ++ domain, 0)] 0 0

/-! ### Crawl completion (`start_crawl_task`, crawls.py, lines 206-213)

After `crawl_site` returns its results the background task decides the
final status and, in the failed case, stores the first five collected
errors joined by `"; "` as the error message. -/

/-- The crawl status enumeration of `database/models.py`. -/
inductive CrawlStatus
  | pending
  | running
  | completed
  | failed
  | cancelled
deriving DecidableEq

/-- The finish transition: `FAILED` with a capped error message when
`pages_failed > 0 and pages_crawled == 0`, else `COMPLETED` (the error
message is then left untouched, modelled as `none`). -/
def finish_crawl (r : CrawlResults) : CrawlStatus × Option String :=
  if 0 < r.pages_failed ∧ r.pages_crawled = 0 then
    (CrawlStatus.failed, some (String.intercalate "; " (r.errors.take 5)))
  else
    (CrawlStatus.completed, none)

/-! ### Concrete environments for witnesses and counterexamples -/

/-- Directed-crawl world for Scenario C: `https://a/ok` responds 200,
every other URL responds 404; pages carry no meta tags or anchors. -/
def E404 : FetchEnv :=
  { goto := fun url _ => if url = "https://a/ok" then some 200 else some 404
    metas := fun _ => []
    anchors := fun _ => []
    urljoin := fun _ href => href
    netloc := fun _ => "" }

/-- World in which every navigation immediately returns HTTP 204 and
pages are empty. -/
def E204 : FetchEnv :=
  { goto := fun _ _ => some 204
    metas := fun _ => []
    anchors := fun _ => []
    urljoin := fun _ href => href
    netloc := fun _ => "" }

/-- World in which every navigation immediately returns HTTP 200 and
pages are empty. -/
def E200 : FetchEnv :=
  { goto := fun _ _ => some 200
    metas := fun _ => []
    anchors := fun _ => []
    urljoin := fun _ href => href
    netloc := fun _ => "" }

/-! ### Claim C2 (corrected) -/

/-- How `crawl_directed` accumulates over its input list, for any
starting results record. -/
theorem crawl_directed_foldl (E : FetchEnv) (urls : List String) (r0 : CrawlResults) :
    urls.foldl (dirStep E) r0 =
      { total_pages := r0.total_pages
        pages_crawled :=
          r0.pages_crawled + (urls.filter (fun u => (crawl_page E u).isSome)).length
        pages_failed :=
          r0.pages_failed + (urls.filter (fun u => (crawl_page E u).isNone)).length
        errors := r0.errors } := by
  induction urls generalizing r0 with
  | nil => simp
  | cons u us ih =>
    simp only [List.foldl_cons, ih, List.filter_cons]
    unfold dirStep
    cases h : crawl_page E u <;> simp [h, Nat.add_assoc, Nat.add_comm 1]

/-- Claim C2, counterexample: in the directed crawl of Scenario C
(`https://a/ok` succeeds, `https://a/404` returns HTTP 404) the failing
URL makes `pages_failed = 1`, but the error list stays empty — a fetch
failure (`_crawl_page` returning `None`) only increments the counter;
`"{url}: {error}"` entries are appended solely in the `except` arm,
which a status-`>= 400` fetch never reaches.  So the run does not end
with an error list containing one entry referencing the failing URL. -/
theorem C2_counterexample :
    (crawl_directed E404 ["https://a/ok", "https://a/404"]).pages_crawled = 1
    ∧ (crawl_directed E404 ["https://a/ok", "https://a/404"]).pages_failed = 1
    ∧ (crawl_directed E404 ["https://a/ok", "https://a/404"]).errors = []
    ∧ ¬ ((crawl_directed E404 ["https://a/ok", "https://a/404"]).pages_crawled = 1
        ∧ (crawl_directed E404 ["https://a/ok", "https://a/404"]).pages_failed = 1
        ∧ (crawl_directed E404 ["https://a/ok", "https://a/404"]).errors.length = 1) := by
  decide

/-- Claim C2 as amended: for every URL whose fetch fails the coordinator
increments `pages_failed` but appends nothing to the error list (error
entries would only come from exceptions escaping the per-URL body, and
the fetch-failure path never raises); successes are counted in
`pages_crawled`, and `total_pages` is the input length.  In Scenario C
this gives `pages_crawled = 1`, `pages_failed = 1` and an empty error
list. -/
theorem C2_directed_failure_accounting (E : FetchEnv) (urls : List String) :
    (crawl_directed E urls).total_pages = urls.length
    ∧ (crawl_directed E urls).pages_crawled =
        (urls.filter (fun u => (crawl_page E u).isSome)).length
    ∧ (crawl_directed E urls).pages_failed =
        (urls.filter (fun u => (crawl_page E u).isNone)).length
    ∧ (crawl_directed E urls).errors = [] := by
  unfold crawl_directed
  rw [crawl_directed_foldl]
  simp

/-! ### Claim C4 (confirmed) -/

/-- Claim C4: a finished crawl transitions to `FAILED` iff
`pages_crawled == 0` and `pages_failed > 0` (otherwise `COMPLETED`,
partial failures included), and in the `FAILED` case the stored error
message is built from only the first 5 collected errors. -/
theorem C4_failed_iff_no_success (r : CrawlResults) :
    ((finish_crawl r).1 = CrawlStatus.failed ↔ (r.pages_crawled = 0 ∧ 0 < r.pages_failed))
    ∧ ((finish_crawl r).1 ≠ CrawlStatus.failed → (finish_crawl r).1 = CrawlStatus.completed)
    ∧ ((finish_crawl r).1 = CrawlStatus.failed →
        (finish_crawl r).2 = some (String.intercalate "; " (r.errors.take 5))) := by
  unfold finish_crawl
  by_cases h : 0 < r.pages_failed ∧ r.pages_crawled = 0 <;> simp [h] <;> omega

/-- Results record with six collected errors and no successes. -/
def rSixErrors : CrawlResults :=
  { total_pages := 3, pages_crawled := 0, pages_failed := 3
    errors := ["e1", "e2", "e3", "e4", "e5", "e6"] }

/-- Witness for C4: with zero successes, three failures and six errors
the crawl finishes `FAILED` and the message keeps the first five
errors. -/
theorem C4_failed_iff_no_success_witness :
    (finish_crawl rSixErrors).1 = CrawlStatus.failed
    ∧ (finish_crawl rSixErrors).2 = some "e1; e2; e3; e4; e5" := by
  have h1 := (C4_failed_iff_no_success rSixErrors).1.mpr (by decide)
  refine ⟨h1, ?_⟩
  rw [(C4_failed_iff_no_success rSixErrors).2.2 h1]
  decide

/-! ### Claim C9 (confirmed) -/

/-- Claim C9: whenever navigation produces a response whose status is
below 400, `_crawl_page` succeeds and the resulting page record carries
the constant `status_code = 200`, regardless of the actual response
status — in particular never the real status when that differs from
200. -/
theorem C9_status_code_constant (E : FetchEnv) (url : String) (s : Nat)
    (hres : (navigate_with_retries (E.goto url) 3).result = some s) (hs : s < 400) :
    crawl_page E url = some (extract_page_data E url)
    ∧ (extract_page_data E url).status_code = 200
    ∧ (s ≠ 200 → (extract_page_data E url).status_code ≠ s) := by
  refine ⟨?_, rfl, fun h => by simp [extract_page_data]; omega⟩
  unfold crawl_page
  rw [hres]
  simp [Nat.not_le.mpr hs]

/-- Witness for C9 at a world answering HTTP 204 everywhere: the fetch
succeeds and the stored status code is 200, not 204. -/
theorem C9_status_code_constant_witness :
    (navigate_with_retries (E204.goto "https://a/x") 3).result = some 204
    ∧ 204 < 400
    ∧ crawl_page E204 "https://a/x" = some (extract_page_data E204 "https://a/x")
    ∧ (extract_page_data E204 "https://a/x").status_code = 200
    ∧ (extract_page_data E204 "https://a/x").status_code ≠ 204 := by
  have h := C9_status_code_constant E204 "https://a/x" 204 (by decide) (by decide)
  exact ⟨by decide, by decide, h.1, h.2.1, h.2.2 (by decide)⟩

/-! ### Claim C10 (confirmed) -/

/-- Claim C10: an anchor whose href starts with neither `http://` nor
`https://` is recorded with `is_internal = True` unconditionally — the
href is resolved through `urljoin`, but no hostname comparison happens,
whatever host the resolved URL has; only absolute http(s) hrefs get
`is_internal` computed by comparing hostnames. -/
theorem C10_relative_links_internal (urljoin : String → String → String)
    (netloc : String → String) (url : String) (anchors : List (String × String))
    (i : Nat) (href text : String)
    (hmem : anchors[i]? = some (href, text))
    (hrel : pyStartsWith href "http://" = false ∧ pyStartsWith href "https://" = false) :
    (extractLinks urljoin netloc url anchors)[i]? =
      some { url := urljoin url href, text := text, is_internal := true } := by
  unfold extractLinks
  rw [List.getElem?_map, hmem]
  unfold mkLink
  simp [hrel.1, hrel.2]

/-- `urljoin` behaviour on the protocol-relative witness href. -/
def ujW : String → String → String :=
  fun _ href => if href = "//other-host/x" then "https://other-host/x" else href

/-- `urlparse(...).netloc` behaviour on the witness URLs. -/
def nlW : String → String :=
  fun u => if u = "https://other-host/x" then "other-host" else "a"

/-- Witness for C10: the protocol-relative anchor `//other-host/x` on a
page of host `a` resolves to `https://other-host/x` — a different host —
yet is recorded with `is_internal = true`. -/
theorem C10_relative_links_internal_witness :
    (extractLinks ujW nlW "https://a/p" [("//other-host/x", "t")])[0]? =
      some { url := "https://other-host/x", text := "t", is_internal := true }
    ∧ nlW "https://other-host/x" ≠ nlW "https://a/p" := by
  refine ⟨?_, by decide⟩
  have h := C10_relative_links_internal ujW nlW "https://a/p" [("//other-host/x", "t")]
    0 "//other-host/x" "t" (by decide) ⟨by decide, by decide⟩
  rw [h]
  decide

/-! ### Claim C5 (confirmed) -/

/-- Claim C5: at every point of a full-site crawl the visited set holds
at most `max_pages` URLs, and the loop halts exactly when the frontier
is empty or the visited set has reached `max_pages`.  The theorem
quantifies over every loop state whose visited set respects the bound
(the initial state has an empty visited set), so it covers every
intermediate point of a run: the final visited set still respects the
bound, and at the halt state either the frontier is exhausted or the
bound is saturated — the loop guard `to_visit and len(visited) <
max_pages` can fail in no other way. -/
theorem C5_visited_bounded (E : FetchEnv) (senum : List String → List String)
    (maxPages maxDepth : Nat) (domain : String) (visited : List String)
    (toVisit : List (String × Nat)) (crawled failed : Nat)
    (hinv : visited.length ≤ maxPages) :
    (crawl_full_site_go E senum maxPages maxDepth domain visited toVisit
        crawled failed).visited.length ≤ maxPages
    ∧ ((crawl_full_site_go E senum maxPages maxDepth domain visited toVisit
          crawled failed).toVisit = []
        ∨ (crawl_full_site_go E senum maxPages maxDepth domain visited toVisit
            crawled failed).visited.length = maxPages) := by
  revert hinv
  induction visited, toVisit, crawled, failed
    using crawl_full_site_go.induct E senum maxPages maxDepth domain with
  | case1 visited crawled failed =>
    intro hinv
    rw [crawl_full_site_go]
    exact ⟨hinv, Or.inl rfl⟩
  | case2 visited url depth rest crawled failed hv hskip ih =>
    intro hinv
    rw [crawl_full_site_go]
    simp only [dif_pos hv, if_pos hskip]
    exact ih hinv
  | case3 visited url depth rest crawled failed hv hskip val hval nl ih =>
    intro _
    rw [crawl_full_site_go]
    simp only [dif_pos hv, if_neg hskip, hval]
    apply ih
    simp only [List.length_append, List.length_cons, List.length_nil]
    omega
  | case4 visited url depth rest crawled failed hv hskip hval ih =>
    intro _
    rw [crawl_full_site_go]
    simp only [dif_pos hv, if_neg hskip, hval]
    apply ih
    simp only [List.length_append, List.length_cons, List.length_nil]
    omega
  | case5 visited url depth rest crawled failed hv =>
    intro hinv
    rw [crawl_full_site_go]
    simp only [dif_neg hv]
    exact ⟨hinv, Or.inr (by omega)⟩

/-- Witness for C5: a small concrete run (bound 2, success everywhere,
no links) starting from the seeded initial state. -/
theorem C5_visited_bounded_witness :
    (crawl_full_site_go E200 (fun l => l.dedup) 2 1 "a" [] [("https://a", 0)]
        0 0).visited.length ≤ 2
    ∧ ((crawl_full_site_go E200 (fun l => l.dedup) 2 1 "a" [] [("https://a", 0)]
          0 0).toVisit = []
        ∨ (crawl_full_site_go E200 (fun l => l.dedup) 2 1 "a" [] [("https://a", 0)]
            0 0).visited.length = 2) :=
  C5_visited_bounded E200 (fun l => l.dedup) 2 1 "a" [] [("https://a", 0)] 0 0
    (by decide)

/-! ### Claim C6 (corrected) -/

/-- A duplicate-free valid enumeration order for a Python `set`
(first-occurrence order). -/
theorem validSetEnum_dedup : ValidSetEnum (fun l => l.dedup) :=
  fun l => ⟨l.nodup_dedup, fun x => List.mem_dedup⟩

/-- A valid enumeration order for a Python `set` that reverses
first-occurrence order — CPython promises nothing about the iteration
order of `set`, so this order is as legitimate as any other. -/
def revSetEnum : List String → List String := fun l => l.dedup.reverse

/-- Two internal links as discovered on a page, in discovery order. -/
def linksC6 : List Link :=
  [{ url := "https://a/1", text := "one", is_internal := true },
   { url := "https://a/2", text := "two", is_internal := true }]

/-- Claim C6, counterexample: `_extract_internal_links` returns
`list(set(internal_urls))`, and a legitimate set iteration order can
reverse discovery order — here two same-depth internal links come back
as `["https://a/2", "https://a/1"]` although they were discovered as
`["https://a/1", "https://a/2"]`, so the enqueue order of same-depth
URLs does not follow discovery order on the page. -/
theorem C6_counterexample :
    ValidSetEnum revSetEnum
    ∧ extract_internal_links revSetEnum linksC6 "a" = ["https://a/2", "https://a/1"]
    ∧ internalUrlCandidates linksC6 = ["https://a/1", "https://a/2"]
    ∧ extract_internal_links revSetEnum linksC6 "a" ≠ internalUrlCandidates linksC6 := by
  refine ⟨fun l => ⟨?_, fun x => ?_⟩, by decide, by decide, by decide⟩
  · simp only [revSetEnum, List.nodup_reverse]
    exact l.nodup_dedup
  · simp [revSetEnum]

/-- Claim C6 as amended: internal links discovered on a page are
filtered to drop the asset extensions `.pdf,.jpg,.png,.gif,.css,.js`,
de-duplicated, and — those not yet visited — enqueued at `depth + 1`;
but the order among the de-duplicated same-depth URLs is the `set`
iteration order, not necessarily discovery order.  The first two
conjuncts say the extracted list enumerates exactly the distinct
filtered internal URLs (in whatever order the set yields); the third is
the loop step that appends them to the frontier at `depth + 1`. -/
theorem C6_enqueue_filtered_depth (senum : List String → List String)
    (hval : ValidSetEnum senum) (E : FetchEnv) (maxPages maxDepth : Nat)
    (domain url : String) (depth : Nat) (rest : List (String × Nat))
    (visited : List String) (crawled failed : Nat) (pd : PageData)
    (hv : visited.length < maxPages) (hnew : ¬(url ∈ visited ∨ maxDepth < depth))
    (hpd : crawl_page E url = some pd) (hd : depth < maxDepth) :
    (extract_internal_links senum pd.links_json domain).Nodup
    ∧ (∀ u, u ∈ extract_internal_links senum pd.links_json domain ↔
        u ∈ internalUrlCandidates pd.links_json)
    ∧ crawl_full_site_go E senum maxPages maxDepth domain visited
        ((url, depth) :: rest) crawled failed
      = crawl_full_site_go E senum maxPages maxDepth domain (visited ++ [url])
          (rest ++ ((extract_internal_links senum pd.links_json domain).filter
              (fun l => l ∉ visited ++ [url])).map (fun l => (l, depth + 1)))
          (crawled + 1) failed := by
  refine ⟨(hval _).1, fun u => (hval _).2 u, ?_⟩
  rw [crawl_full_site_go]
  simp only [dif_pos hv, if_neg hnew, hpd, if_pos hd]

/-- Full-site world for the C6 witness: every page carries the two
same-host anchors of `linksC6`. -/
def EWit : FetchEnv :=
  { goto := fun _ _ => some 200
    metas := fun _ => []
    anchors := fun _ => [("https://a/1", "one"), ("https://a/2", "two")]
    urljoin := fun _ href => href
    netloc := fun _ => "a" }

/-- Witness for the amended C6 at a concrete loop step: the root page's
two internal links are enqueued, de-duplicated, at depth 1. -/
theorem C6_enqueue_filtered_depth_witness :
    (extract_internal_links (fun l => l.dedup)
        (extract_page_data EWit "https://a").links_json "a").Nodup
    ∧ (∀ u, u ∈ extract_internal_links (fun l => l.dedup)
          (extract_page_data EWit "https://a").links_json "a" ↔
        u ∈ internalUrlCandidates (extract_page_data EWit "https://a").links_json)
    ∧ crawl_full_site_go EWit (fun l => l.dedup) 5 1 "a" []
        [("https://a", 0)] 0 0
      = crawl_full_site_go EWit (fun l => l.dedup) 5 1 "a" ([] ++ ["https://a"])
          ([] ++ ((extract_internal_links (fun l => l.dedup)
              (extract_page_data EWit "https://a").links_json "a").filter
                (fun l => l ∉ [] ++ ["https://a"])).map (fun l => (l, 0 + 1)))
          (0 + 1) 0 :=
  C6_enqueue_filtered_depth (fun l => l.dedup) validSetEnum_dedup EWit 5 1 "a"
    "https://a" 0 [] [] 0 0 (extract_page_data EWit "https://a")
    (by decide) (by decide) (by decide) (by decide)

/-! ### `ContentProcessor._clean_markdown` (content_processor.py, lines 121-145)

The five `re.sub` passes and the final truncation, transcribed with
Python's regex semantics (leftmost match, greedy quantifiers,
non-overlapping replacements, scanning resuming after each
replacement):

1. `re.sub(r'\n\s*\n\s*\n', '\n\n', markdown)` — at a newline whose
   contiguous whitespace run contains at least three newlines, the
   greedy match spans up to the last newline of the run and is replaced
   by two newlines.
2. `markdown.strip()`.
3. `re.sub(r'^(\s*)[-*+](\s+)', r'\1- ', markdown, flags=re.MULTILINE)`
   — anchored at line starts; `\s*`/`\s+` may span newlines; the list
   marker and the following whitespace become `"- "` after the kept
   whitespace group.
4. `re.sub(r'\[([^\]]*)\]\(\s*\)', r'\1', markdown)` — links with
   effectively empty targets collapse to their label.
5. `re.sub(r'\*{3,}', '**', ...)` and `re.sub(r'_{3,}', '__', ...)` —
   runs of three or more emphasis markers collapse to two.
6. Truncate to 50000 characters and append `"..."` when longer. -/

/-- Scan the whitespace run that follows a newline: starting from
`(count, last) = (1, 0)` (one newline seen, ending 0 characters in),
walk the run and report how many newlines it contains and how many
characters of the scanned list lie up to and including the last one. -/
def nlScan : List Char → Nat → Nat × Nat → Nat × Nat
  | [], _, acc => acc
  | c :: rest, i, (cnt, last) =>
    if isPySpace c then
      if c = '\n' then nlScan rest (i + 1) (cnt + 1, i + 1)
      else nlScan rest (i + 1) (cnt, last)
    else (cnt, last)

/-- Pass 1: collapse whitespace runs containing 3+ newlines. -/
def collapseNewlines : List Char → List Char
  | [] => []
  | c :: rest =>
    if c = '\n' then
      match nlScan rest 0 (1, 0) with
      | (cnt, last) =>
        if 3 ≤ cnt then '\n' :: '\n' :: collapseNewlines (rest.drop last)
        else c :: collapseNewlines rest
    else c :: collapseNewlines rest
termination_by l => l.length
decreasing_by
  · simp only [List.length_cons, List.length_drop]
    omega
  · simp
  · simp

/-- Pass 3, with `lineStart` tracking whether the current position is a
`re.MULTILINE` `^` anchor.  At an anchor: take the greedy `\s*` group
`w`, require a list marker and then a non-empty greedy `\s+`; replace
the match by `w ++ "- "` and continue after it (which is an anchor
again exactly when the last matched whitespace character was a
newline).  Failing a match, fall to copy mode, which emits characters
up to and including the next newline (the next anchor). -/
def nlm : Bool → List Char → List Char
  | true, l =>
    match hr : l.drop (l.takeWhile isPySpace).length with
    | m :: r2 =>
      if m = '-' ∨ m = '*' ∨ m = '+' then
        if hw : r2.takeWhile isPySpace = [] then nlm false l
        else
          l.takeWhile isPySpace ++ '-' :: ' ' ::
            nlm (decide ((r2.takeWhile isPySpace).getLast hw = '\n'))
              (r2.drop (r2.takeWhile isPySpace).length)
      else nlm false l
    | [] => nlm false l
  | false, [] => []
  | false, c :: rest => if c = '\n' then c :: nlm true rest else c :: nlm false rest
termination_by b l => (l.length, if b then 1 else 0)
decreasing_by
  · apply Prod.Lex.right
    simp
  · apply Prod.Lex.left
    have h1 := congrArg List.length hr
    simp only [List.length_drop, List.length_cons] at h1
    have h2 : (r2.drop (r2.takeWhile isPySpace).length).length ≤ r2.length := by
      simp only [List.length_drop]
      omega
    have h3 : 0 < (r2.takeWhile isPySpace).length := List.length_pos.mpr hw
    simp only [List.length_drop] at h2 ⊢
    omega
  · apply Prod.Lex.right
    simp
  · apply Prod.Lex.right
    simp
  · apply Prod.Lex.left
    simp
  · apply Prod.Lex.left
    simp

/-- Pass 4: collapse `[label](   )` to `label`. -/
def removeEmptyLinks : List Char → List Char
  | [] => []
  | c :: rest =>
    if c = '[' then
      match h1 : rest.drop (rest.takeWhile (fun x => x ≠ ']')).length with
      | ']' :: '(' :: r3 =>
        match h2 : r3.drop (r3.takeWhile isPySpace).length with
        | ')' :: r4 => rest.takeWhile (fun x => x ≠ ']') ++ removeEmptyLinks r4
        | _ => c :: removeEmptyLinks rest
      | _ => c :: removeEmptyLinks rest
    else c :: removeEmptyLinks rest
termination_by l => l.length
decreasing_by
  · have e1 := congrArg List.length h1
    have e2 := congrArg List.length h2
    simp only [List.length_drop, List.length_cons] at e1 e2
    simp only [List.length_cons]
    omega
  · simp
  · simp
  · simp

/-- Pass 5: collapse maximal runs of 3+ copies of `mark` to `rep`. -/
def collapseRun (mark : Char) (rep : List Char) : List Char → List Char
  | [] => []
  | c :: rest =>
    if hc : c = mark then
      (if 3 ≤ ((c :: rest).takeWhile (fun x => x = mark)).length then rep
       else (c :: rest).takeWhile (fun x => x = mark)) ++
        collapseRun mark rep ((c :: rest).drop ((c :: rest).takeWhile (fun x => x = mark)).length)
    else c :: collapseRun mark rep rest
termination_by l => l.length
decreasing_by
  · have h3 : 0 < ((c :: rest).takeWhile (fun x => x = mark)).length := by
      simp [List.takeWhile_cons, hc]
    simp only [List.length_drop, List.length_cons] at h3 ⊢
    omega
  · simp

/-- Passes 1-5 of `_clean_markdown`, in source order. -/
def postMarkdown (l : List Char) : List Char :=
  collapseRun '_' ['_', '_']
    (collapseRun '*' ['*', '*']
      (removeEmptyLinks (nlm true (pyStrip (collapseNewlines l)))))

/-- `_clean_markdown(markdown)`: the five passes, then
`markdown[:50000] + "..."` when the result exceeds 50000 characters. -/
def clean_markdown (s : String) : String :=
  let m := postMarkdown s.data
  if 50000 < m.length then ⟨m.take 50000 ++ "...".data⟩ else ⟨m⟩

/-- `ContentProcessor.html_to_markdown(html_content)` (lines 30-69):
empty input returns `""`; otherwise the HTML is parsed and scrubbed
(BeautifulSoup element removal, `_clean_formatting`) and converted by
`markdownify` — external DOM/conversion collaborators folded into the
function `conv` — and the resulting markdown goes through
`_clean_markdown`. -/
def html_to_markdown (conv : String → String) (html : String) : String :=
  if html = "" then "" else clean_markdown (conv html)

/-! ### Claim C3 (corrected)

The five passes leave a string consisting only of `'a'` characters
unchanged (it contains no newline, whitespace, bracket or emphasis
marker), which pins down the exact behaviour of the truncation step on
over-long content. -/

theorem dropWhile_all_a (l : List Char) (ha : ∀ c ∈ l, c = 'a') :
    l.dropWhile isPySpace = l := by
  cases l with
  | nil => rfl
  | cons c rest =>
    have hc := ha c (by simp)
    subst hc
    rw [List.dropWhile_cons]
    simp [show isPySpace 'a' = false from by decide]

theorem pyStrip_all_a (l : List Char) (ha : ∀ c ∈ l, c = 'a') : pyStrip l = l := by
  unfold pyStrip
  rw [dropWhile_all_a l ha,
    dropWhile_all_a _ (fun c hc => ha c (List.mem_reverse.mp hc)),
    List.reverse_reverse]

theorem collapseNewlines_all_a (l : List Char) (ha : ∀ c ∈ l, c = 'a') :
    collapseNewlines l = l := by
  induction l with
  | nil => simp [collapseNewlines]
  | cons c rest ih =>
    have hc := ha c (by simp)
    subst hc
    rw [collapseNewlines, if_neg (by decide)]
    exact congrArg _ (ih (fun x hx => ha x (by simp [hx])))

theorem nlm_false_all_a (l : List Char) (ha : ∀ c ∈ l, c = 'a') : nlm false l = l := by
  induction l with
  | nil => simp [nlm]
  | cons c rest ih =>
    have hc := ha c (by simp)
    subst hc
    rw [nlm, if_neg (by decide)]
    exact congrArg _ (ih (fun x hx => ha x (by simp [hx])))

theorem nlm_true_all_a (l : List Char) (ha : ∀ c ∈ l, c = 'a') : nlm true l = l := by
  have hs : l.takeWhile isPySpace = [] := by
    cases l with
    | nil => rfl
    | cons c rest =>
      have hc := ha c (by simp)
      subst hc
      simp [List.takeWhile_cons, show isPySpace 'a' = false from by decide]
  rw [nlm]
  split
  · next m r2 heq =>
    rw [hs] at heq
    simp only [List.length_nil, List.drop_zero] at heq
    have hm : m = 'a' := ha m (by rw [heq]; simp)
    subst hm
    rw [if_neg (by decide)]
    exact nlm_false_all_a l ha
  · exact nlm_false_all_a l ha

theorem removeEmptyLinks_all_a (l : List Char) (ha : ∀ c ∈ l, c = 'a') :
    removeEmptyLinks l = l := by
  induction l with
  | nil => simp [removeEmptyLinks]
  | cons c rest ih =>
    have hc := ha c (by simp)
    subst hc
    rw [removeEmptyLinks, if_neg (by decide)]
    exact congrArg _ (ih (fun x hx => ha x (by simp [hx])))

theorem collapseRun_all_a (mark : Char) (rep : List Char) (l : List Char)
    (hm : ¬mark = 'a') (ha : ∀ c ∈ l, c = 'a') : collapseRun mark rep l = l := by
  induction l with
  | nil => simp [collapseRun]
  | cons c rest ih =>
    have hc := ha c (by simp)
    subst hc
    rw [collapseRun, dif_neg (fun h => hm h.symm)]
    exact congrArg _ (ih (fun x hx => ha x (by simp [hx])))

theorem postMarkdown_all_a (l : List Char) (ha : ∀ c ∈ l, c = 'a') :
    postMarkdown l = l := by
  unfold postMarkdown
  rw [collapseNewlines_all_a l ha, pyStrip_all_a l ha, nlm_true_all_a l ha,
    removeEmptyLinks_all_a l ha, collapseRun_all_a _ _ l (by decide) ha,
    collapseRun_all_a _ _ l (by decide) ha]

/-- 60000 characters of content, longer than the 50000-character cap. -/
def bigA : String := ⟨List.replicate 60000 'a'⟩

theorem postMarkdown_bigA : postMarkdown bigA.data = List.replicate 60000 'a' :=
  postMarkdown_all_a _ (fun _ hc => List.eq_of_mem_replicate hc)

theorem bigA_ne_empty : bigA ≠ "" := by
  intro h
  have h2 : bigA.data.length = ("" : String).data.length :=
    congrArg (fun s => s.data.length) h
  rw [show bigA.data = List.replicate 60000 'a' from rfl, List.length_replicate] at h2
  exact absurd h2 (by decide)

/-- Claim C3, counterexample: on content whose post-processed markdown
is 60000 characters, `html_to_markdown` returns
`markdown[:50000] + "..."`, a string of 50003 characters — the
truncation appends the ellipsis on top of the 50000-character cut, so
the output length is not bounded by 50000. -/
theorem C3_counterexample :
    ¬(html_to_markdown (fun s => s) bigA).length ≤ 50000
    ∧ (html_to_markdown (fun s => s) bigA).length = 50003 := by
  have hlen : (html_to_markdown (fun s => s) bigA).length = 50003 := by
    unfold html_to_markdown clean_markdown
    rw [if_neg bigA_ne_empty]
    simp only [postMarkdown_bigA, List.length_replicate]
    rw [if_pos (by omega)]
    show ((List.replicate 60000 'a').take 50000 ++ "...".data).length = 50003
    rw [List.length_append, List.length_take, List.length_replicate]
    rfl
  exact ⟨by omega, hlen⟩

/-- Claim C3 as amended: the markdown returned by `html_to_markdown` has
length at most 50003 — content whose post-processed markdown exceeds
the 50000-character cap is hard-truncated to its first 50000 characters
and the three-character ellipsis `"..."` is appended, giving exactly
50003 characters (50000 as the claim stated them, plus the ellipsis);
shorter content is returned unchanged, within the cap. -/
theorem C3_truncation_bound (conv : String → String) (html : String) :
    (html_to_markdown conv html).length ≤ 50003
    ∧ (html ≠ "" → 50000 < (postMarkdown (conv html).data).length →
        html_to_markdown conv html =
          ⟨(postMarkdown (conv html).data).take 50000 ++ "...".data⟩
        ∧ (html_to_markdown conv html).length = 50003) := by
  unfold html_to_markdown clean_markdown
  by_cases h : html = ""
  · simp [h]
  · rw [if_neg h]
    by_cases h2 : 50000 < (postMarkdown (conv html).data).length
    · rw [if_pos h2]
      have hl : ((postMarkdown (conv html).data).take 50000 ++ "...".data).length = 50003 := by
        rw [List.length_append, List.length_take]
        have h3 : ("...".data).length = 3 := rfl
        omega
      exact ⟨le_of_eq hl, fun _ _ => ⟨rfl, hl⟩⟩
    · rw [if_neg h2]
      refine ⟨?_, fun _ hc => absurd hc h2⟩
      show (postMarkdown (conv html).data).length ≤ 50003
      omega

/-- Witness for the amended C3 at the 60000-character content: the
hypotheses hold and the output is the truncated-plus-ellipsis string of
length 50003. -/
theorem C3_truncation_bound_witness :
    bigA ≠ ""
    ∧ 50000 < (postMarkdown ((fun s => s) bigA).data).length
    ∧ html_to_markdown (fun s => s) bigA =
        ⟨(postMarkdown ((fun s => s) bigA).data).take 50000 ++ "...".data⟩
    ∧ (html_to_markdown (fun s => s) bigA).length = 50003 := by
  have h50 : 50000 < (postMarkdown ((fun s => s) bigA).data).length := by
    show 50000 < (postMarkdown bigA.data).length
    rw [postMarkdown_bigA, List.length_replicate]
    omega
  exact ⟨bigA_ne_empty, h50,
    ((C3_truncation_bound (fun s => s) bigA).2 bigA_ne_empty h50).1,
    ((C3_truncation_bound (fun s => s) bigA).2 bigA_ne_empty h50).2⟩

/-! ### `ContentProcessor._chunk_text` (content_processor.py, lines 234-282)

Positions are naturals.  Python computes `start = end - overlap` as a
(possibly negative) integer and then forces `start = end` when
`start <= 0`; with truncated natural subtraction `end - overlap = 0`
holds exactly when the integer value is `<= 0`, so the embedded guard
coincides with the source's.  `str.rfind(sub, start, end)` returns the
greatest index `i` with `start <= i` and `i + len(sub) <= min(end,
len(text))` at which `sub` occurs, or `-1` — modelled as `Option Nat`,
with the source's comparison `found > start + chunk_size // 2` (false
for `-1`) captured by `overMid`. -/

/-- Python `text.rfind(pat, s, e)` as an `Option`. -/
def pyRfindStr (text pat : List Char) (s e : Nat) : Option Nat :=
  ((List.range (min e text.length)).filter
    (fun i => s ≤ i ∧ i + pat.length ≤ min e text.length ∧
      (text.drop i).take pat.length = pat)).max?

/-- The comparison `found > mid` of the source, where `found` is a
Python `rfind` result (`-1` when absent, hence never `> mid`). -/
def overMid : Option Nat → Nat → Option Nat
  | some i, mid => if mid < i then some i else none
  | none, _ => none

/-- The cut position of one chunk: `end = start + chunk_size`, then —
only when `end < len(text)` — try the last sentence terminator past the
window midpoint (`end = sentence_end + 1`), else the last paragraph
break past the midpoint (`end = para_break + 2`), else the last word
boundary past the midpoint (`end = word_break`). -/
def chunkEnd (text : List Char) (cs start : Nat) : Nat :=
  if start + cs < text.length then
    match overMid (pyRfindStr text ".".data start (start + cs)) (start + cs / 2) with
    | some se => se + 1
    | none =>
      match overMid (pyRfindStr text "\n\n".data start (start + cs)) (start + cs / 2) with
      | some pb => pb + 2
      | none =>
        match overMid (pyRfindStr text " ".data start (start + cs)) (start + cs / 2) with
        | some wb => wb
        | none => start + cs
  else start + cs

/-- The cursor update: `start = end - overlap; if start <= 0: start =
end`. -/
def chunkNextStart (text : List Char) (cs ov start : Nat) : Nat :=
  if chunkEnd text cs start - ov = 0 then chunkEnd text cs start
  else chunkEnd text cs start - ov

/-- The `while start < len(text)` loop: cut a chunk, strip it, keep it
when non-empty, move the cursor.  The loop of the source has no fuel;
the `fuel` parameter makes the recursion structural and `none` reports
that the loop was still running after `fuel` iterations. -/
def chunkGo (text : List Char) (cs ov : Nat) :
    Nat → Nat → List (List Char) → Option (List (List Char))
  | 0, _, _ => none
  | fuel + 1, start, acc =>
    if start < text.length then
      chunkGo text cs ov fuel (chunkNextStart text cs ov start)
        (if pyStrip ((text.drop start).take (chunkEnd text cs start - start)) = [] then acc
         else acc ++ [pyStrip ((text.drop start).take (chunkEnd text cs start - start))])
    else some acc

/-- `_chunk_text(text, chunk_size, overlap)`: text within one chunk is
returned whole; otherwise the loop runs from position 0. -/
def chunk_text (text : List Char) (cs ov fuel : Nat) : Option (List (List Char)) :=
  if text.length ≤ cs then some [text] else chunkGo text cs ov fuel 0 []

/-! ### Claim C7 (corrected) -/

/-- The 15-character text `abcdefghi.jklmn`, whose only `.` sits at
index 9. -/
def tC7 : List Char := "abcdefghi.jklmn".data

/-- With `chunk_size = 10` and `overlap = 7` the loop reaches cursor 3
and stays there forever: the sentence boundary at index 9 puts the cut
at 10, and `10 - 7 = 3` neither advances the cursor nor triggers the
`start <= 0` guard. -/
theorem chunkGo_stuck_tC7 (fuel : Nat) : ∀ acc, chunkGo tC7 10 7 fuel 3 acc = none := by
  induction fuel with
  | zero => intro acc; rfl
  | succ fuel ih =>
    intro acc
    rw [chunkGo, if_pos (by decide),
      show chunkNextStart tC7 10 7 3 = 3 from by decide]
    exact ih _

/-- Claim C7, counterexample: at `text = "abcdefghi.jklmn"`,
`chunk_size = 10 > 0`, `overlap = 7 >= 0`, the cut at cursor 3 lands at
position 10 and the cursor update returns 3 again — it does not advance,
yet it is not forced to `end` (the source forces `end` only when
`end - overlap <= 0`, not whenever the cursor fails to advance) — and
the chunking loop is still running after 1000 iterations: it does not
terminate. -/
theorem C7_counterexample :
    chunkNextStart tC7 10 7 3 = 3
    ∧ chunkEnd tC7 10 3 = 10
    ∧ chunkNextStart tC7 10 7 3 ≠ chunkEnd tC7 10 3
    ∧ chunk_text tC7 10 7 1000 = none := by
  refine ⟨by decide, by decide, by decide, ?_⟩
  rw [chunk_text, if_neg (by decide), chunkGo, if_pos (by decide),
    show chunkNextStart tC7 10 7 0 = 3 from by decide]
  exact chunkGo_stuck_tC7 999 _

theorem overMid_lt (o : Option Nat) (mid i : Nat) (h : overMid o mid = some i) :
    mid < i := by
  cases o with
  | none => exact absurd h (by simp [overMid])
  | some j =>
    simp only [overMid] at h
    split at h
    · cases h
      assumption
    · cases h

/-- Every cut lies strictly past the window midpoint (or at the full
window edge). -/
theorem chunkEnd_lb (text : List Char) (cs start : Nat) (hcs : 0 < cs) :
    start + cs / 2 + 1 ≤ chunkEnd text cs start := by
  have hdiv : cs / 2 < cs := Nat.div_lt_self hcs (by omega)
  rw [chunkEnd]
  split
  · cases h1 : overMid (pyRfindStr text ".".data start (start + cs)) (start + cs / 2) with
    | some se => have := overMid_lt _ _ _ h1; simp only [h1]; omega
    | none =>
      simp only [h1]
      cases h2 : overMid (pyRfindStr text "\n\n".data start (start + cs)) (start + cs / 2) with
      | some pb => have := overMid_lt _ _ _ h2; simp only [h2]; omega
      | none =>
        simp only [h2]
        cases h3 : overMid (pyRfindStr text " ".data start (start + cs)) (start + cs / 2) with
        | some wb => have := overMid_lt _ _ _ h3; simp only [h3]; omega
        | none => simp only [h3]; omega
  · omega

/-- When `overlap <= chunk_size // 2`, the cursor strictly advances. -/
theorem chunkNextStart_advance (text : List Char) (cs ov start : Nat)
    (hcs : 0 < cs) (hov : ov ≤ cs / 2) :
    start + 1 ≤ chunkNextStart text cs ov start := by
  have h := chunkEnd_lb text cs start hcs
  rw [chunkNextStart]
  split <;> omega

theorem chunkGo_terminates (text : List Char) (cs ov : Nat)
    (hcs : 0 < cs) (hov : ov ≤ cs / 2) :
    ∀ fuel start acc, text.length - start < fuel →
      (chunkGo text cs ov fuel start acc).isSome = true := by
  intro fuel
  induction fuel with
  | zero => intro start acc h; omega
  | succ fuel ih =>
    intro start acc h
    rw [chunkGo]
    split
    · next hlt =>
      apply ih
      have := chunkNextStart_advance text cs ov start hcs hov
      omega
    · rfl

/-- Claim C7 as amended: the cursor moves to `end - overlap` and is
forced to `end` exactly when `end - overlap <= 0` (not whenever it
fails to advance); under `overlap <= chunk_size // 2` — which holds for
the only call site, `chunk_size = 1000, overlap = 200` — the cursor
strictly advances every iteration and the loop terminates within
`len(text)` iterations.  (For `overlap > chunk_size // 2` termination
can fail, as the counterexample shows.) -/
theorem C7_chunk_termination (text : List Char) (cs ov : Nat)
    (hcs : 0 < cs) (hov : ov ≤ cs / 2) :
    (∀ start, start + 1 ≤ chunkNextStart text cs ov start)
    ∧ (∀ start, chunkNextStart text cs ov start =
        if chunkEnd text cs start - ov = 0 then chunkEnd text cs start
        else chunkEnd text cs start - ov)
    ∧ (chunk_text text cs ov (text.length + 1)).isSome = true := by
  refine ⟨fun start => chunkNextStart_advance text cs ov start hcs hov,
    fun start => rfl, ?_⟩
  rw [chunk_text]
  split
  · rfl
  · exact chunkGo_terminates text cs ov hcs hov (text.length + 1) 0 [] (by omega)

/-- 25 characters of plain text for the C7 witness. -/
def tW7 : List Char := "aaaaaaaaaaaaaaaaaaaaaaaaa".data

/-- Witness for the amended C7 with `chunk_size = 10`, `overlap = 5`:
the loop terminates within the fuel bound. -/
theorem C7_chunk_termination_witness :
    0 < 10 ∧ 5 ≤ 10 / 2
    ∧ (chunk_text tW7 10 5 (tW7.length + 1)).isSome = true :=
  ⟨by decide, by decide, (C7_chunk_termination tW7 10 5 (by decide) (by decide)).2.2⟩

/-! ### Claim C8 (confirmed) -/

/-- The key list of a dict model. -/
def dkeys (m : List (String × String)) : List String := m.map Prod.fst

theorem dlookup_dinsert_self (m : List (String × String)) (k v : String) :
    dlookup k (dinsert m k v) = some v := by
  induction m with
  | nil => simp [dinsert, dlookup]
  | cons kv rest ih =>
    obtain ⟨k0, v0⟩ := kv
    rw [dinsert]
    by_cases h : k0 = k
    · rw [if_pos h]
      simp [dlookup]
    · rw [if_neg h, dlookup, if_neg h]
      exact ih

theorem dkeys_cons (k0 v0 : String) (rest : List (String × String)) :
    dkeys ((k0, v0) :: rest) = k0 :: dkeys rest := rfl

theorem dlookup_dinsert_ne (m : List (String × String)) (k v q : String) (h : q ≠ k) :
    dlookup q (dinsert m k v) = dlookup q m := by
  induction m with
  | nil =>
    rw [dinsert]
    show (if k = q then some v else dlookup q []) = dlookup q []
    rw [if_neg (fun hh => h hh.symm)]
  | cons kv rest ih =>
    obtain ⟨k0, v0⟩ := kv
    rw [dinsert]
    by_cases h0 : k0 = k
    · rw [if_pos h0]
      subst h0
      rw [dlookup, dlookup, if_neg (fun hh => h hh.symm), if_neg (fun hh => h hh.symm)]
    · rw [if_neg h0, dlookup, dlookup]
      by_cases h1 : k0 = q
      · rw [if_pos h1, if_pos h1]
      · rw [if_neg h1, if_neg h1]
        exact ih

theorem mem_dkeys_dinsert (m : List (String × String)) (k v x : String)
    (h : x ∈ dkeys (dinsert m k v)) : x ∈ dkeys m ∨ x = k := by
  induction m with
  | nil =>
    rw [dinsert, dkeys_cons] at h
    rcases List.mem_cons.mp h with h1 | h1
    · exact Or.inr h1
    · exact absurd h1 (by simp [dkeys])
  | cons kv rest ih =>
    obtain ⟨k0, v0⟩ := kv
    rw [dinsert] at h
    rw [dkeys_cons]
    by_cases h0 : k0 = k
    · rw [if_pos h0] at h
      subst h0
      rw [dkeys_cons] at h
      exact Or.inl h
    · rw [if_neg h0, dkeys_cons] at h
      rcases List.mem_cons.mp h with h1 | h1
      · exact Or.inl (List.mem_cons.mpr (Or.inl h1))
      · rcases ih h1 with h2 | h2
        · exact Or.inl (List.mem_cons.mpr (Or.inr h2))
        · exact Or.inr h2

theorem dkeys_nodup_dinsert (m : List (String × String)) (k v : String)
    (h : (dkeys m).Nodup) : (dkeys (dinsert m k v)).Nodup := by
  induction m with
  | nil => simp [dinsert, dkeys]
  | cons kv rest ih =>
    obtain ⟨k0, v0⟩ := kv
    rw [dinsert]
    rw [dkeys_cons, List.nodup_cons] at h
    by_cases h0 : k0 = k
    · rw [if_pos h0]
      subst h0
      rw [dkeys_cons, List.nodup_cons]
      exact h
    · rw [if_neg h0, dkeys_cons, List.nodup_cons]
      refine ⟨fun hm => ?_, ih h.2⟩
      rcases mem_dkeys_dinsert rest k v k0 hm with h2 | h2
      · exact h.1 h2
      · exact h0 h2

/-- Folding dict assignments whose keys avoid `q` does not change the
binding of `q`. -/
theorem dlookup_foldl_not_mem (l : List (String × String)) (og : List (String × String))
    (q : String) (h : q ∉ dkeys l) :
    dlookup q (l.foldl (fun m kv => dinsert m kv.1 kv.2) og) = dlookup q og := by
  induction l generalizing og with
  | nil => rfl
  | cons kv rest ih =>
    obtain ⟨k0, v0⟩ := kv
    rw [dkeys_cons] at h
    have h1 : q ≠ k0 := fun hh => h (hh ▸ List.mem_cons_self _ _)
    have h2 : q ∉ dkeys rest := fun hh => h (List.mem_cons.mpr (Or.inr hh))
    rw [List.foldl_cons, ih _ h2, dlookup_dinsert_ne _ _ _ _ h1]

/-- Folding a dict with duplicate-free keys into another dict makes its
bindings win. -/
theorem dlookup_foldl_mem (l : List (String × String)) (og : List (String × String))
    (q v : String) (hnd : (dkeys l).Nodup) (h : dlookup q l = some v) :
    dlookup q (l.foldl (fun m kv => dinsert m kv.1 kv.2) og) = some v := by
  induction l generalizing og with
  | nil => cases h
  | cons kv rest ih =>
    obtain ⟨k0, v0⟩ := kv
    rw [dkeys_cons, List.nodup_cons] at hnd
    rw [dlookup] at h
    rw [List.foldl_cons]
    by_cases h0 : k0 = q
    · rw [if_pos h0] at h
      injection h with hv
      subst hv
      subst h0
      rw [dlookup_foldl_not_mem _ _ _ hnd.1]
      exact dlookup_dinsert_self og k0 v0
    · rw [if_neg h0] at h
      exact ih _ hnd.2 h

theorem twStep_keys_nodup (m : List (String × String)) (t : MetaTag)
    (h : (dkeys m).Nodup) : (dkeys (twStep m t)).Nodup := by
  cases hn : t.name with
  | none =>
    simp only [twStep, hn]
    exact h
  | some p =>
    simp only [twStep, hn]
    by_cases hp : pyStartsWith p "twitter:" = true
    · rw [if_pos hp]
      exact dkeys_nodup_dinsert _ _ _ h
    · rw [if_neg hp]
      exact h

theorem twitterData_keys_nodup (metas : List MetaTag) :
    (dkeys (twitterData metas)).Nodup := by
  rw [twitterData]
  have aux : ∀ (ms : List MetaTag) (acc : List (String × String)), (dkeys acc).Nodup →
      (dkeys (ms.foldl twStep acc)).Nodup := by
    intro ms
    induction ms with
    | nil => intro acc h; exact h
    | cons t rest ih =>
      intro acc h
      rw [List.foldl_cons]
      exact ih _ (twStep_keys_nodup acc t h)
  exact aux metas [] (by simp [dkeys])

/-- Claim C8: the merged `og_json` map is `{**og_data, **twitter_data}`,
so whenever the twitter dict binds a key, the merged map carries the
twitter value — the later-applied source of the merge wins on every
collision with an `og:`-sourced value. -/
theorem C8_twitter_overwrites_og (metas : List MetaTag) (k v : String)
    (h : dlookup k (twitterData metas) = some v) :
    dlookup k (ogJson metas) = some v := by
  rw [ogJson]
  exact dlookup_foldl_mem _ _ _ _ (twitterData_keys_nodup metas) h

/-- Scenario D's page: `og:title = X` and `twitter:title = Y`. -/
def metasC8 : List MetaTag :=
  [{ property := some "og:title", name := none, content := some "X" },
   { property := none, name := some "twitter:title", content := some "Y" }]

/-- Witness for C8 at Scenario D: both sources define `title`; the
merged map stores the twitter value `Y`. -/
theorem C8_twitter_overwrites_og_witness :
    dlookup "title" (ogData metasC8) = some "X"
    ∧ dlookup "title" (twitterData metasC8) = some "Y"
    ∧ dlookup "title" (ogJson metasC8) = some "Y" :=
  ⟨by decide, by decide, C8_twitter_overwrites_og metasC8 "title" "Y" (by decide)⟩

end SFPro

